import Mathlib

/-
Verification of the wlutil utility module (wlutil/wlutil.py) of FireMarshal.

The module shells out to external binaries to assemble bootable disk or
initramfs images.  We embed its operations shallowly:

* external effects are recorded as an explicit trace of `Event`s;
* runtime inputs the code reads from the environment (exit codes of spawned
  processes, directory listings, the pid written by guestmount, the random
  characters drawn for a run name, the outcome of each liveness probe) are
  oracle parameters of the Lean functions;
* Python exceptions become `Except Exc`.

Each Lean definition mirrors one Python definition of the source file and
keeps its name.
-/

namespace Wlutil

/-- A command passed to `run`: either an argv list or a shell string
(the source accepts both, `isinstance(args[0], str)`). -/
inductive Cmd
  | argv : List String → Cmd
  | shell : String → Cmd
deriving DecidableEq, Repr

/-- Python exceptions raised by the module. `commandFailure` is
`subprocess.CalledProcessError(returncode, cmd)`; `valueError` is `ValueError`;
`other` stands for an arbitrary exception injected by a caller body. -/
inductive Exc
  | commandFailure : Int → String → Exc
  | valueError : String → Exc
  | other : String → Exc
deriving DecidableEq, Repr

/-- Observable external effects of the module, in program order.
`run c` is a process spawned through the `run` wrapper; `spCall` is a process
spawned directly via `subprocess.call` (bypassing `run`); `remove` is
`os.remove`; `wait pid` is a call into the module function `waitpid`;
`kill pid sig` is an `os.kill` existence probe; `sleepMs` is `time.sleep`
(milliseconds); the remaining constructors are logger calls and in-process
filesystem operations. -/
inductive Event
  | run : Cmd → Event
  | spCall : String → Event
  | remove : String → Event
  | wait : Nat → Event
  | kill : Nat → Nat → Event
  | sleepMs : Nat → Event
  | logInfo : String → Event
  | logWarning : String → Event
  | logWarnPatches : List String → Event
  | logError : String → Event
  | mkdirP : String → Event
  | copyFile : String → String → Event
deriving DecidableEq, Repr

/-- Model of `FileSpec`, the namedtuple with fields `src` and `dst`. -/
structure FileSpec where
  src : String
  dst : String
deriving DecidableEq, Repr

/-- Model of `mnt = os.path.join(root_dir, "disk-mount")`; `root_dir = os.getcwd()` is a
runtime value, so it is a parameter here.  `os.path.join` inserts the
separator because the second component is relative and we assume `root_dir`
does not end in a slash (`getcwd` never returns a trailing slash). -/
def mnt (rootDir : String) : String := rootDir ++ "/disk-mount"

/-- Model of `board_dir`, the path root_dir/boards/firechip. -/
def board_dir (rootDir : String) : String := rootDir ++ "/boards/firechip"

/-- Model of `linux_dir = os.path.join(root_dir, "riscv-linux")`. -/
def linux_dir (rootDir : String) : String := rootDir ++ "/riscv-linux"

/-- Model of `busybox_dir`, the path wlutil_dir/busybox. -/
def busybox_dir (wlutilDir : String) : String := wlutilDir ++ "/busybox"

/-- Model of `initramfs_root = os.path.join(wlutil_dir, "initramfsRoot")`. -/
def initramfs_root (wlutilDir : String) : String := wlutilDir ++ "/initramfsRoot"

/-- Model of `jlevel = "-j" + str(os.cpu_count())`; the cpu count is a runtime value. -/
def jlevel (cpuCount : Nat) : String := "-j" ++ toString cpuCount

/-- The human-readable command string computed at the top of `run`:
the shell string itself, or the argv entries joined with single spaces. -/
def prettyCmd : Cmd → String
  | Cmd.shell s => s
  | Cmd.argv l => String.intercalate " " l

/-- Model of `run(*args, level, check, **kwargs)`: spawns the process, streams output to
the logger, waits, and then
`if check == True and p.returncode != 0: raise sp.CalledProcessError(p.returncode, prettyCmd)`.
The exit code of the spawned process is the oracle `returncode`. -/
def run (c : Cmd) (check : Bool) (returncode : Int) : Except Exc Unit :=
  if check = true ∧ returncode ≠ 0 then
    Except.error (Exc.commandFailure returncode (prettyCmd c))
  else
    Except.ok ()

/-- Result of one `os.kill(pid, 0)` existence probe inside `waitpid(pid)` —
`ok` when the call succeeds (the process exists), `oserror e` when it raises
`OSError` with `errno == e`.  `errno.ESRCH = 3`. -/
inductive KillRes
  | ok : KillRes
  | oserror : Nat → KillRes
deriving DecidableEq, Repr

/-- The `while not done` loop of `waitpid(pid)`, with the probe outcomes given
by the oracle `probe` (the `i`-th iteration sees `probe i`).  Each iteration
performs `os.kill(pid, 0)`; if that raises `OSError` with `errno == ESRCH` the
loop breaks and the function returns, otherwise (probe succeeded, or raised a
different errno which the `except` clause swallows) it does `time.sleep(0.25)`
and iterates.  The source loop has no bound, so the embedding takes fuel and
returns `none` when the process outlives the fuel (the loop is still running);
`some trace` is the event trace of a terminated call. -/
def waitpidLoop (pid : Nat) (probe : Nat → KillRes) : Nat → Nat → Option (List Event)
  | 0, _ => none
  | fuel + 1, i =>
    match probe i with
    | KillRes.oserror e =>
      if e = 3 then some [Event.kill pid 0]
      else (waitpidLoop pid probe fuel (i + 1)).map
        (fun t => Event.kill pid 0 :: Event.sleepMs 250 :: t)
    | KillRes.ok => (waitpidLoop pid probe fuel (i + 1)).map
        (fun t => Event.kill pid 0 :: Event.sleepMs 250 :: t)

/-- Model of `waitpid(pid)` (the module function, a poll loop over `os.kill`). -/
def waitpid (pid : Nat) (probe : Nat → KillRes) (fuel : Nat) : Option (List Event) :=
  waitpidLoop pid probe fuel 0

/-- Model of `mountImg(imgPath, mntPath)`, the contextmanager generator.  The body of
the `with` statement is abstracted as the pair `body` of its event trace and
outcome; `mntPid` is the integer the code reads back from
`./guestmount.pid` (a runtime value).  Control flow of the source:

* first `run(["guestmount", ...])`;
* `try:` read the pid file, `yield mntPath`;
* `finally:` `run(["guestunmount", mntPath])`, `os.remove("./guestmount.pid")`;
* after the try/finally statement, `waitpid(mntPid)`.

Because `waitpid(mntPid)` stands after the try/finally block, it is reached
only when the generator completes normally: when the body raises, the
exception is rethrown at the yield, the `finally` clause runs, and the
exception propagates out of the generator without reaching the `waitpid`
call.  External commands are assumed to exit 0 here (their failure modes are
covered by `run`). -/
def mountImg (imgPath mntPath : String) (mntPid : Nat)
    (body : List Event × Except Exc Unit) : List Event × Except Exc Unit :=
  let enter := Event.run (Cmd.argv
    ["guestmount", "--pid-file", "guestmount.pid", "-a", imgPath, "-m", "/dev/sda", mntPath])
  let cleanup := [Event.run (Cmd.argv ["guestunmount", mntPath]),
                  Event.remove "./guestmount.pid"]
  match body.2 with
  | Except.ok _ => (enter :: body.1 ++ cleanup ++ [Event.wait mntPid], Except.ok ())
  | Except.error e => (enter :: body.1 ++ cleanup, Except.error e)

/-- Split a character list at every occurrence of `c`, keeping empty pieces —
the behavior of Python `str.split(sep)` (and of `String.splitOn`) on the
character level. -/
def splitOnChar (c : Char) : List Char → List (List Char)
  | [] => [[]]
  | x :: xs =>
    let r := splitOnChar c xs
    if x = c then [] :: r
    else
      match r with
      | [] => [[x]]
      | y :: ys => (x :: y) :: ys

/-- Join character-list components with the slash character, as Python
str.join with a slash separator does. -/
def joinSlash : List (List Char) → List Char
  | [] => []
  | [x] => x
  | x :: xs => x ++ '/' :: joinSlash xs

/-- Python `os.path.normpath` for POSIX paths, transcribed from CPython
`posixpath.normpath`: empty input gives `"."`; one leading slash is kept, two
leading slashes are kept as two, three or more collapse to one; components
that are empty or `"."` are dropped; `".."` pops the previous component unless
the path is relative and empty so far, or the previous component is itself
`".."`.  (CPython tests `startswith("/")`, `startswith("//")` and
`startswith("///")`; the `match` below is that case split on the leading
characters.) -/
def normpath (path : String) : String :=
  if path = "" then "." else
  let l := path.data
  let initialSlashes : Nat :=
    match l with
    | '/' :: '/' :: '/' :: _ => 1
    | '/' :: '/' :: _ => 2
    | '/' :: _ => 1
    | _ => 0
  let newComps := (splitOnChar '/' l).foldl (fun acc comp =>
    if comp = List.nil ∨ comp = ['.'] then acc
    else if comp ≠ ['.', '.'] ∨ (initialSlashes = 0 ∧ acc = List.nil)
            ∨ (acc ≠ List.nil ∧ acc.getLastD List.nil = ['.', '.']) then acc ++ [comp]
    else if acc ≠ List.nil then acc.dropLast
    else acc) List.nil
  let joined := List.replicate initialSlashes '/' ++ joinSlash newComps
  if joined = List.nil then "." else String.mk joined

/-- The mount-relative path join used inline in `copyImgFiles`
(lines 237 and 240): `os.path.normpath(mnt + p)` — string concatenation of the
mount point and the spec path, then `normpath`.  The source comments that
`os.path.join` is unusable because it discards the first component when the
second is absolute. -/
def mountJoin (mntPoint p : String) : String := normpath (mntPoint ++ p)

/-- The `for f in files:` loop in the body of the `with mountImg(...)` block of
`copyImgFiles`: direction `"in"` runs
`cp -a {f.src} {normpath(mnt + f.dst)}` through `run` (shell=True), direction
`"out"` runs `cp -a {normpath(mnt + f.src)} {f.dst}`, and any other direction
raises `ValueError` at the first iteration that reaches it.  (The `out` branch
also computes `os.getuid()` into a local that the source never uses; it has no
observable effect and is omitted.)  Copy commands are assumed to exit 0: the
loop control depends only on the direction test. -/
def copyBody (mntPoint direction : String) : List FileSpec → List Event × Except Exc Unit
  | [] => ([], Except.ok ())
  | f :: fs =>
    if direction = "in" then
      let r := copyBody mntPoint direction fs
      (Event.run (Cmd.shell ("cp -a " ++ f.src ++ " " ++ mountJoin mntPoint f.dst)) :: r.1, r.2)
    else if direction = "out" then
      let r := copyBody mntPoint direction fs
      (Event.run (Cmd.shell ("cp -a " ++ mountJoin mntPoint f.src ++ " " ++ f.dst)) :: r.1, r.2)
    else
      ([], Except.error (Exc.valueError
        "direction option must be either \x27in\x27 or \x27out\x27"))

/-- Model of `copyImgFiles(img, files, direction)`: if the mount-point directory does
not exist (`mntExists` is the oracle for `os.path.exists(mnt)`), run
`mkdir mnt`; then open one `mountImg` scope over the whole file loop. -/
def copyImgFiles (rootDir : String) (mntExists : Bool) (img : String)
    (files : List FileSpec) (direction : String) (mntPid : Nat) :
    List Event × Except Exc Unit :=
  let pre := if mntExists then [] else [Event.run (Cmd.argv ["mkdir", mnt rootDir])]
  let m := mountImg img (mnt rootDir) mntPid (copyBody (mnt rootDir) direction files)
  (pre ++ m.1, m.2)

/-- Model of `applyOverlay(img, overlay)`: one `"in"` transfer of
`FileSpec(src=os.path.join(overlay, "*"), dst="/")`. -/
def applyOverlay (rootDir : String) (mntExists : Bool) (img overlay : String)
    (mntPid : Nat) : List Event × Except Exc Unit :=
  copyImgFiles rootDir mntExists img [⟨overlay ++ "/*", "/"⟩] "in" mntPid

/-- Model of `toCpio(config, src, dst)`: inside one `mountImg` scope, run the
`find | cpio` pipeline through `run`; afterwards, for distro `fedora` or `br`,
concatenate the distro-specific append blob onto `dst` via a direct
`sp.call(..., shell=True)` — not through `run`. -/
def toCpio (rootDir wlutilDir : String) (distro src dst : String) (mntPid : Nat) :
    List Event × Except Exc Unit :=
  let body := ([Event.run (Cmd.shell
    ("find -print0 | cpio --owner root:root --null -ov --format=newc > " ++ dst))],
    Except.ok ())
  let m := mountImg src (mnt rootDir) mntPid body
  let append :=
    if distro = "fedora" then
      [Event.spCall ("cat " ++ wlutilDir ++ "/fedora-initramfs-append.cpio" ++ " >> " ++ dst)]
    else if distro = "br" then
      [Event.spCall ("cat " ++ wlutilDir ++ "/br-initramfs-append.cpio" ++ " >> " ++ dst)]
    else []
  (m.1 ++ append, m.2)

/-- Python `os.path.basename` for POSIX paths: everything after the last slash
(CPython takes the slice after the last slash), here as the last piece of a
slash-split. -/
def basename (p : String) : String :=
  String.mk ((splitOnChar '/' p.data).getLastD [])

/-- Python `str.rfind(c)` on a character list: index of the last occurrence,
`-1` when absent. -/
def rfind (l : List Char) (c : Char) : Int :=
  match l.reverse.findIdx? (fun x => x == c) with
  | none => -1
  | some i => (l.length : Int) - 1 - i

/-- The root part of `os.path.splitext(p)`, transcribed from CPython
`genericpath._splitext`: split at the last dot if it lies after the last
separator and the name up to it is not made of dots only (so leading dots of
a hidden file never start an extension); otherwise return `p` unchanged. -/
def splitextRoot (p : String) : String :=
  let l := p.data
  let sepIndex := rfind l '/'
  let dotIndex := rfind l '.'
  if sepIndex < dotIndex then
    let nameStart := (sepIndex + 1).toNat
    let stem := (l.drop nameStart).take (dotIndex.toNat - nameStart)
    if stem.any (fun ch => ch != '.') then String.mk (l.take dotIndex.toNat) else p
  else p

/-- Model of `randname`, the join of sixteen `random.choice` draws from
uppercase letters and digits: sixteen characters drawn from the random generator,
which is the oracle `choice` (the draw of iteration `i` is `choice i`; the
restriction of the drawn characters to `A`-`Z0-9` plays no role in the
claims). -/
def randname (choice : Nat → Char) : String :=
  String.mk ((List.range 16).map choice)

/-- Model of `setRunName(configPath, operation)`: the run name assigned to the global.
`timeline` is the oracle for `time.strftime(..., time.gmtime())` (a UTC
timestamp string); `configName` is the basename of `configPath` without its
extension, or empty when `configPath` is falsy (empty). -/
def setRunName (configPath operation timeline : String) (choice : Nat → Char) : String :=
  let configName := if configPath = "" then "" else splitextRoot (basename configPath)
  configName ++ "-" ++ operation ++ "-" ++ timeline ++ "-" ++ randname choice

/-- The `for patch in patches:` loop inside the `try:` of `oneTimeInit`,
unrolled with its surrounding exception handler.  `applyOk k` is the oracle
for whether `run(["git", "apply", patches[k]], cwd=linux_dir)` exits 0.  Each
iteration logs `Applying: ...` and spawns `git apply`; the first failing
apply raises inside the loop, the bare `except:` catches it, logs an error and
falls off the end — so later patches are not attempted and nothing
propagates. -/
def applyPatchesLoop : List String → (Nat → Bool) → Nat → List Event
  | [], _, _ => []
  | p :: ps, applyOk, k =>
    Event.logInfo ("Applying: " ++ p) :: Event.run (Cmd.argv ["git", "apply", p]) ::
      (if applyOk k then applyPatchesLoop ps applyOk (k + 1)
       else [Event.logError
         "Failed to apply patches. If you\x27ve changed the default linux, you should re-evaluate the patches."])

/-- Model of `initramfs_dirs` of `oneTimeInit`. -/
def initramfs_dirs : List String :=
  ["bin", "dev", "etc", "proc", "root", "sbin", "sys", "usr/bin", "usr/sbin", "mnt/root"]

/-- Model of `oneTimeInit()`.  Oracles: `dirExists` for `(initramfs_root / d).exists()`,
`makeRc` for the exit code of `run(["make", jlevel], cwd=busybox_dir)` (whose
failure is not caught and propagates), `dirty` for `linuxRepo.is_dirty()`,
`patches` for `board_dir.glob("*.patch")`, and `applyOk` for the patch
applications.  A dirty tree logs two warnings and skips the patch loop
entirely; otherwise the guarded loop `applyPatchesLoop` runs.  Either way the
patch step never raises. -/
def oneTimeInit (wlutilDir : String) (cpuCount : Nat)
    (dirExists : String → Bool) (makeRc : Int) (dirty : Bool)
    (patches : List String) (applyOk : Nat → Bool) : List Event × Except Exc Unit :=
  let mkdirs := (initramfs_dirs.filter
      (fun d => ! dirExists (initramfs_root wlutilDir ++ "/" ++ d))).map
      (fun d => Event.mkdirP (initramfs_root wlutilDir ++ "/" ++ d))
  let buildPre := mkdirs ++
    [Event.logInfo "Building busybox (used in initramfs)",
     Event.copyFile (wlutilDir ++ "/busybox-config") (busybox_dir wlutilDir ++ "/.config"),
     Event.run (Cmd.argv ["make", jlevel cpuCount])]
  match run (Cmd.argv ["make", jlevel cpuCount]) true makeRc with
  | Except.error e => (buildPre, Except.error e)
  | Except.ok _ =>
    let post := [Event.copyFile (busybox_dir wlutilDir ++ "/busybox")
      (initramfs_root wlutilDir ++ "/bin/")]
    let patchPart :=
      if dirty then
        [Event.logWarning
          "Linux source dirty, skipping patches. You should manually check that the following patches have been applied (or are not needed):",
         Event.logWarnPatches patches]
      else
        Event.logInfo "Applying linux patches to default linux source" ::
          applyPatchesLoop patches applyOk 0
    (buildPre ++ post ++ patchPart, Except.ok ())

/-- The `git apply` spawns of a trace, in order, by patch path. -/
def gitApplyEvents (tr : List Event) : List String :=
  tr.filterMap (fun e =>
    match e with
    | Event.run (Cmd.argv ["git", "apply", p]) => some p
    | _ => none)

/-- Recognizes the guestmount spawn. -/
def isMountCmd : Event → Bool
  | Event.run (Cmd.argv (c :: _)) => c == "guestmount"
  | _ => false

/-- Recognizes the guestunmount spawn. -/
def isUnmountCmd : Event → Bool
  | Event.run (Cmd.argv (c :: _)) => c == "guestunmount"
  | _ => false

/-- Recognizes a process spawned directly (not through `run`). -/
def isDirectSpawn : Event → Bool
  | Event.spCall _ => true
  | _ => false

end Wlutil

namespace Wlutil

/-- C2: for every invocation of `run`, if `check` is true and the spawned
process exits with a nonzero code, `run` raises a `CalledProcessError`
carrying that exact exit code and the pretty command string; if `check` is
false, `run` returns normally for every exit code and never raises. -/
theorem run_check_semantics (c : Cmd) (rc : Int) :
    (rc ≠ 0 → run c true rc = Except.error (Exc.commandFailure rc (prettyCmd c))) ∧
    run c false rc = Except.ok () := by
  constructor
  · intro h
    simp [run, h]
  · simp [run]

/-- Witness for C2 at a concrete command and exit code. -/
theorem run_check_semantics_witness :
    run (Cmd.argv ["ls", "-l"]) true 2
        = Except.error (Exc.commandFailure 2 "ls -l") ∧
    run (Cmd.argv ["ls", "-l"]) false 2 = Except.ok () := by
  have h := run_check_semantics (Cmd.argv ["ls", "-l"]) 2
  exact ⟨h.1 (by decide), h.2⟩

/-- C1 (code bug, evaluated at the failing input): when the body of
`mountImg` raises, the unmount command runs and the pid side-channel file is
deleted, but the call to `waitpid` on the captured mount pid is absent from
the trace — the source places `waitpid(mntPid)` after the try/finally, so the
propagating exception bypasses it, contrary to the claim that the liveness
poll runs on every exit path before the exception propagates. -/
theorem mountImg_exception_skips_waitpid :
    (mountImg "test.img" "/fm/disk-mount" 42
        ([Event.run (Cmd.shell "touch x")], Except.error (Exc.other "injected fault"))).2
      = Except.error (Exc.other "injected fault") ∧
    Event.run (Cmd.argv ["guestunmount", "/fm/disk-mount"])
      ∈ (mountImg "test.img" "/fm/disk-mount" 42
          ([Event.run (Cmd.shell "touch x")], Except.error (Exc.other "injected fault"))).1 ∧
    Event.remove "./guestmount.pid"
      ∈ (mountImg "test.img" "/fm/disk-mount" 42
          ([Event.run (Cmd.shell "touch x")], Except.error (Exc.other "injected fault"))).1 ∧
    Event.wait 42
      ∉ (mountImg "test.img" "/fm/disk-mount" 42
          ([Event.run (Cmd.shell "touch x")], Except.error (Exc.other "injected fault"))).1 :=
  ⟨rfl, by decide, by decide, by decide⟩

/-- C7: `setRunName` concatenates the basename of the config file without its
extension, the operation, the UTC timestamp and the 16-character random
suffix, joined by `-`; for `("/cfg/foo.yaml", "build")` the name is
`foo-build-` followed by timestamp and suffix, so two successive calls whose
random draws differ produce two different run names both beginning with
`foo-build-`. -/
theorem setRunName_unique_and_prefixed (t1 t2 : String) (c1 c2 : Nat → Char)
    (hne : randname c1 ≠ randname c2) :
    (∀ t c, setRunName "/cfg/foo.yaml" "build" t c = "foo-build-" ++ t ++ "-" ++ randname c) ∧
    (∀ c, (randname c).length = 16) ∧
    setRunName "/cfg/foo.yaml" "build" t1 c1 ≠ setRunName "/cfg/foo.yaml" "build" t2 c2 := by
  refine ⟨fun t c => rfl, fun c => by simp [randname, String.length], fun heq => ?_⟩
  rw [show setRunName "/cfg/foo.yaml" "build" t1 c1
        = ("foo-build-" ++ t1 ++ "-") ++ randname c1 from rfl,
      show setRunName "/cfg/foo.yaml" "build" t2 c2
        = ("foo-build-" ++ t2 ++ "-") ++ randname c2 from rfl] at heq
  have hd : ("foo-build-" ++ t1 ++ "-").data ++ (randname c1).data
      = ("foo-build-" ++ t2 ++ "-").data ++ (randname c2).data := by
    rw [← String.data_append, ← String.data_append, heq]
  have hlen : (randname c1).data.length = (randname c2).data.length := by
    simp [randname]
  have hr : (randname c1).data = (randname c2).data := (List.append_inj' hd hlen).2
  exact hne (congrArg String.mk hr)

/-- Witness for C7: two concrete random draws that differ give different run
names. -/
theorem setRunName_unique_and_prefixed_witness :
    randname (fun _ => 'A') ≠ randname (fun _ => 'B') ∧
    setRunName "/cfg/foo.yaml" "build" "2024-01-01--00-00-00" (fun _ => 'A')
      ≠ setRunName "/cfg/foo.yaml" "build" "2024-01-01--00-00-00" (fun _ => 'B') := by
  have h := setRunName_unique_and_prefixed "2024-01-01--00-00-00" "2024-01-01--00-00-00"
    (fun _ => 'A') (fun _ => 'B') (by decide)
  exact ⟨by decide, h.2.2⟩

/-- C4 counterexample: the claim says a destination without a leading slash is
treated as a relative append under the mount point, which for mount point
`/mnt/x` and `dst="etc"` would give `/mnt/x/etc`; the join the code performs,
`normpath(mnt + dst)`, instead string-concatenates and yields the sibling
path `/mnt/xetc`, and `copyImgFiles` (here with `root_dir = "/x"`, hence
mount point `/x/disk-mount`) emits the correspondingly fused copy command. -/
theorem copyImgFiles_relative_dst_counterexample :
    mountJoin "/mnt/x" "etc" = "/mnt/xetc" ∧
    ("/mnt/xetc" : String) ≠ "/mnt/x/etc" ∧
    Event.run (Cmd.shell "cp -a /src/f /x/disk-mountetc")
      ∈ (copyImgFiles "/x" true "a.img" [⟨"/src/f", "etc"⟩] "in" 5).1 := by
  refine ⟨by decide, by decide, by decide⟩

/-- C4 amended: the mount-relative join of `copyImgFiles` is
`normpath(mnt + p)`: a destination with a leading slash is appended under the
mount point (`/etc` under `/mnt/x` gives `/mnt/x/etc`, the mount point is
never discarded), while a destination without a leading slash is concatenated
directly onto the mount-point string (`etc` under `/mnt/x` gives `/mnt/xetc`),
not relative-appended; the `in`-direction copy command of `copyImgFiles` uses
exactly this join. -/
theorem copyImgFiles_mountJoin_amended (rootDir img : String) (me : Bool)
    (f : FileSpec) (pid : Nat) :
    mountJoin "/mnt/x" "/etc" = "/mnt/x/etc" ∧
    mountJoin "/mnt/x" "etc" = "/mnt/xetc" ∧
    Event.run (Cmd.shell ("cp -a " ++ f.src ++ " " ++ mountJoin (mnt rootDir) f.dst))
      ∈ (copyImgFiles rootDir me img [f] "in" pid).1 := by
  refine ⟨by decide, by decide, ?_⟩
  simp [copyImgFiles, mountImg, copyBody]

/-- The copy loop itself spawns only `cp` shell commands: no mount, no
unmount, no direct spawn. -/
theorem copyBody_no_special_spawns (mp d : String) (fs : List FileSpec) :
    ∀ e ∈ (copyBody mp d fs).1,
      isMountCmd e = false ∧ isUnmountCmd e = false ∧ isDirectSpawn e = false := by
  induction fs with
  | nil => simp [copyBody]
  | cons f fs ih =>
    intro e he
    by_cases h1 : d = "in"
    · subst h1
      simp [copyBody] at he
      rcases he with rfl | he
      · exact ⟨rfl, rfl, rfl⟩
      · exact ih e he
    · by_cases h2 : d = "out"
      · subst h2
        simp [copyBody, h1] at he
        rcases he with rfl | he
        · exact ⟨rfl, rfl, rfl⟩
        · exact ih e he
      · simp [copyBody, h1, h2] at he

/-- C5: one call to `copyImgFiles` performs exactly one mount and one unmount
of the image, for every list of FileSpecs (including the empty list) and
every direction value — one mount scope covers all specs. -/
theorem copyImgFiles_one_mount_cycle (rootDir : String) (me : Bool) (img : String)
    (files : List FileSpec) (d : String) (pid : Nat) :
    (copyImgFiles rootDir me img files d pid).1.countP (fun e => isMountCmd e) = 1 ∧
    (copyImgFiles rootDir me img files d pid).1.countP (fun e => isUnmountCmd e) = 1 := by
  have hb := copyBody_no_special_spawns (mnt rootDir) d files
  constructor
  · cases h : (copyBody (mnt rootDir) d files).2 <;> by_cases hm : me <;>
      simp [copyImgFiles, mountImg, h, hm, List.countP_append, List.countP_cons,
        isMountCmd, isUnmountCmd] <;>
      exact fun a ha => (hb a ha).1
  · cases h : (copyBody (mnt rootDir) d files).2 <;> by_cases hm : me <;>
      simp [copyImgFiles, mountImg, h, hm, List.countP_append, List.countP_cons,
        isMountCmd, isUnmountCmd] <;>
      exact fun a ha => (hb a ha).2.1

/-- C9: `copyImgFiles` validates its direction only inside the per-FileSpec
loop: with an empty list any direction value completes without the
`ValueError`, and with a non-empty list and an invalid direction the image is
still mounted (the guestmount spawn is in the trace) and the call then raises
the `ValueError`. -/
theorem copyImgFiles_direction_checked_in_loop (rootDir : String) (me : Bool)
    (img : String) (f : FileSpec) (fs : List FileSpec) (d : String) (pid : Nat)
    (hin : d ≠ "in") (hout : d ≠ "out") :
    (∀ d2, (copyImgFiles rootDir me img [] d2 pid).2 = Except.ok ()) ∧
    (copyImgFiles rootDir me img (f :: fs) d pid).2
      = Except.error (Exc.valueError
          "direction option must be either \x27in\x27 or \x27out\x27") ∧
    Event.run (Cmd.argv
        ["guestmount", "--pid-file", "guestmount.pid", "-a", img, "-m", "/dev/sda", mnt rootDir])
      ∈ (copyImgFiles rootDir me img (f :: fs) d pid).1 := by
  refine ⟨fun d2 => by simp [copyImgFiles, mountImg, copyBody], ?_, ?_⟩ <;>
    simp [copyImgFiles, mountImg, copyBody, hin, hout]

/-- Witness for C9 at a concrete invalid direction and non-empty list. -/
theorem copyImgFiles_direction_checked_in_loop_witness :
    (copyImgFiles "/fm" true "a.img" [] "sideways" 3).2 = Except.ok () ∧
    (copyImgFiles "/fm" true "a.img" [⟨"/a", "/b"⟩] "sideways" 3).2
      = Except.error (Exc.valueError
          "direction option must be either \x27in\x27 or \x27out\x27") ∧
    Event.run (Cmd.argv
        ["guestmount", "--pid-file", "guestmount.pid", "-a", "a.img", "-m", "/dev/sda", "/fm/disk-mount"])
      ∈ (copyImgFiles "/fm" true "a.img" [⟨"/a", "/b"⟩] "sideways" 3).1 := by
  have h := copyImgFiles_direction_checked_in_loop "/fm" true "a.img" ⟨"/a", "/b"⟩ []
    "sideways" 3 (by decide) (by decide)
  exact ⟨h.1 "sideways", h.2.1, h.2.2⟩

/-- One loop iteration whose probe does not report ESRCH (the probe succeeded,
or raised an OSError with a different errno): the loop sleeps and
continues. -/
theorem waitpidLoop_step_not_gone (pid : Nat) (probe : Nat → KillRes) (fuel i : Nat)
    (h : probe i ≠ KillRes.oserror 3) :
    waitpidLoop pid probe (fuel + 1) i =
      (waitpidLoop pid probe fuel (i + 1)).map
        (fun t => Event.kill pid 0 :: Event.sleepMs 250 :: t) := by
  rw [waitpidLoop]
  cases hp : probe i with
  | ok => rfl
  | oserror e =>
    have he : e ≠ 3 := by
      intro hcontra
      exact h (hcontra ▸ hp)
    simp [he]

/-- One loop iteration whose probe reports ESRCH: the loop breaks at once. -/
theorem waitpidLoop_step_gone (pid : Nat) (probe : Nat → KillRes) (fuel i : Nat)
    (h : probe i = KillRes.oserror 3) :
    waitpidLoop pid probe (fuel + 1) i = some [Event.kill pid 0] := by
  rw [waitpidLoop, h]
  exact if_pos rfl

/-- Exact trace of the poll loop when the first ESRCH probe from index `i` is
the one at `i + k` and the fuel suffices. -/
theorem waitpidLoop_trace (pid : Nat) (probe : Nat → KillRes) :
    ∀ fuel k i, (∀ j, j < k → probe (i + j) ≠ KillRes.oserror 3) →
      probe (i + k) = KillRes.oserror 3 → k < fuel →
      waitpidLoop pid probe fuel i =
        some ((List.replicate k [Event.kill pid 0, Event.sleepMs 250]).flatten
          ++ [Event.kill pid 0]) := by
  intro fuel
  induction fuel with
  | zero => exact fun k i _ _ hk => absurd hk (Nat.not_lt_zero k)
  | succ fuel ih =>
    intro k i hbefore hgone hk
    cases k with
    | zero =>
      rw [waitpidLoop_step_gone pid probe fuel i (by simpa using hgone)]
      simp
    | succ k =>
      have h0 : probe i ≠ KillRes.oserror 3 := by
        have := hbefore 0 (Nat.succ_pos k)
        simpa using this
      rw [waitpidLoop_step_not_gone pid probe fuel i h0]
      rw [ih k (i + 1)
        (fun j hj => by
          have := hbefore (j + 1) (Nat.succ_lt_succ hj)
          simpa [Nat.add_assoc, Nat.add_comm 1 j] using this)
        (by simpa [Nat.add_assoc, Nat.add_comm 1 k] using hgone)
        (Nat.lt_of_succ_lt_succ hk)]
      simp [List.replicate_succ]

/-- C6: `waitpid(pid)` probes the process with `os.kill(pid, 0)` and returns
exactly at the first probe reporting the process gone (ESRCH), sleeping 250ms
between successive probes: when the first gone probe is the `k`-th, the trace
is `k + 1` probes with `k` sleeps interleaved; in particular for a PID that is
already gone (`k = 0`) it returns after one probe with no sleep at all. -/
theorem waitpid_poll_semantics (pid k fuel : Nat) (probe : Nat → KillRes)
    (hbefore : ∀ j, j < k → probe j ≠ KillRes.oserror 3)
    (hgone : probe k = KillRes.oserror 3) (hfuel : k < fuel) :
    waitpid pid probe fuel =
      some ((List.replicate k [Event.kill pid 0, Event.sleepMs 250]).flatten
        ++ [Event.kill pid 0]) ∧
    (probe 0 = KillRes.oserror 3 → waitpid pid probe fuel = some [Event.kill pid 0]) := by
  have hmain := waitpidLoop_trace pid probe fuel k 0
    (fun j hj => by simpa using hbefore j hj) (by simpa using hgone) hfuel
  constructor
  · exact hmain
  · intro h0
    cases k with
    | zero => simpa using hmain
    | succ k => exact absurd h0 (by simpa using hbefore 0 (Nat.succ_pos k))

/-- Witness for C6: a process that dies before the third probe, and one that
is gone at the very first probe. -/
theorem waitpid_poll_semantics_witness :
    waitpid 9 (fun i => if i < 2 then KillRes.ok else KillRes.oserror 3) 5 =
      some [Event.kill 9 0, Event.sleepMs 250, Event.kill 9 0, Event.sleepMs 250,
        Event.kill 9 0] ∧
    waitpid 9 (fun _ => KillRes.oserror 3) 5 = some [Event.kill 9 0] := by
  have h1 := waitpid_poll_semantics 9 2 5 (fun i => if i < 2 then KillRes.ok else KillRes.oserror 3)
    (by decide) (by decide) (by decide)
  have h2 := waitpid_poll_semantics 9 0 5 (fun _ => KillRes.oserror 3)
    (by intro j hj; exact absurd hj (Nat.not_lt_zero j)) (by decide) (by decide)
  exact ⟨by simpa using h1.1, h2.2 (by decide)⟩


/-- The poll loop cannot distinguish a probe that succeeded from a probe that
raised a non-ESRCH OSError: two probe oracles that agree on where ESRCH
occurs give identical behavior. -/
theorem waitpidLoop_gone_congr (pid : Nat) (p1 p2 : Nat → KillRes)
    (hsame : ∀ k, (p1 k = KillRes.oserror 3) ↔ (p2 k = KillRes.oserror 3)) :
    ∀ fuel i, waitpidLoop pid p1 fuel i = waitpidLoop pid p2 fuel i := by
  intro fuel
  induction fuel with
  | zero => intro i; rfl
  | succ fuel ih =>
    intro i
    by_cases hg : p1 i = KillRes.oserror 3
    · rw [waitpidLoop_step_gone pid p1 fuel i hg,
        waitpidLoop_step_gone pid p2 fuel i ((hsame i).1 hg)]
    · rw [waitpidLoop_step_not_gone pid p1 fuel i hg,
        waitpidLoop_step_not_gone pid p2 fuel i (fun c => hg ((hsame i).2 c)),
        ih (i + 1)]

/-- A terminated poll loop has seen an ESRCH probe. -/
theorem waitpidLoop_some_gone (pid : Nat) (probe : Nat → KillRes) :
    ∀ fuel i tr, waitpidLoop pid probe fuel i = some tr →
      ∃ k, i ≤ k ∧ probe k = KillRes.oserror 3 := by
  intro fuel
  induction fuel with
  | zero =>
    intro i tr h
    simp [waitpidLoop] at h
  | succ fuel ih =>
    intro i tr h
    by_cases hg : probe i = KillRes.oserror 3
    · exact ⟨i, Nat.le_refl i, hg⟩
    · rw [waitpidLoop_step_not_gone pid probe fuel i hg] at h
      cases hmap : waitpidLoop pid probe fuel (i + 1) with
      | none => rw [hmap] at h; exact absurd h (by simp)
      | some tr2 =>
        obtain ⟨k, hk, hg2⟩ := ih (i + 1) tr2 hmap
        exact ⟨k, Nat.le_of_succ_le hk, hg2⟩

/-- C10: `waitpid` treats every probe failure other than ESRCH as the process
still being alive: an iteration whose probe raises another OSError sleeps and
continues exactly like a live-process iteration, the behavior depends only on
where the ESRCH probes occur (so no probe error is ever propagated — the loop
has no failing outcome), and a call that returns has seen an ESRCH probe. -/
theorem waitpid_swallows_probe_errors (pid fuel : Nat) (p1 p2 : Nat → KillRes)
    (hsame : ∀ k, (p1 k = KillRes.oserror 3) ↔ (p2 k = KillRes.oserror 3)) :
    waitpid pid p1 fuel = waitpid pid p2 fuel ∧
    (∀ i e, e ≠ 3 → p1 i = KillRes.oserror e →
      waitpidLoop pid p1 (fuel + 1) i =
        (waitpidLoop pid p1 fuel (i + 1)).map
          (fun t => Event.kill pid 0 :: Event.sleepMs 250 :: t)) ∧
    (∀ tr, waitpid pid p1 fuel = some tr → ∃ k, p1 k = KillRes.oserror 3) := by
  refine ⟨waitpidLoop_gone_congr pid p1 p2 hsame fuel 0, ?_, ?_⟩
  · intro i e he hp
    have hne : p1 i ≠ KillRes.oserror 3 := by
      rw [hp]
      simp [he]
    exact waitpidLoop_step_not_gone pid p1 fuel i hne
  · intro tr h
    obtain ⟨k, _, hg⟩ := waitpidLoop_some_gone pid p1 fuel 0 tr h
    exact ⟨k, hg⟩

/-- Witness for C10: a first probe raising EACCES-style errno 13 behaves like
a live process — the run equals the one whose first probe succeeds — and the
terminated call indeed saw an ESRCH probe. -/
theorem waitpid_swallows_probe_errors_witness :
    waitpid 7 (fun i => if i = 0 then KillRes.oserror 13 else KillRes.oserror 3) 5 =
      waitpid 7 (fun i => if i = 0 then KillRes.ok else KillRes.oserror 3) 5 ∧
    (∃ k, (fun i => if i = 0 then KillRes.oserror 13 else KillRes.oserror 3) k
      = KillRes.oserror 3) := by
  have h := waitpid_swallows_probe_errors 7 5
    (fun i => if i = 0 then KillRes.oserror 13 else KillRes.oserror 3)
    (fun i => if i = 0 then KillRes.ok else KillRes.oserror 3)
    (by
      intro k
      by_cases hk : k = 0 <;> simp [hk])
  exact ⟨h.1, h.2.2 [Event.kill 7 0, Event.sleepMs 250, Event.kill 7 0] (by decide)⟩


/-- Computation rule: no spawn is collected from the empty trace. -/
theorem gitApplyEvents_nil : gitApplyEvents [] = [] := rfl

/-- A `logInfo` event contributes no `git apply` spawn. -/
theorem gitApplyEvents_cons_logInfo (s : String) (tr : List Event) :
    gitApplyEvents (Event.logInfo s :: tr) = gitApplyEvents tr := rfl

/-- A `logError` event contributes no `git apply` spawn. -/
theorem gitApplyEvents_cons_logError (s : String) (tr : List Event) :
    gitApplyEvents (Event.logError s :: tr) = gitApplyEvents tr := rfl

/-- A `git apply` spawn is collected. -/
theorem gitApplyEvents_cons_gitApply (p : String) (tr : List Event) :
    gitApplyEvents (Event.run (Cmd.argv ["git", "apply", p]) :: tr)
      = p :: gitApplyEvents tr := rfl

/-- The patch loop entered at index `i`, when the first failing application is
`k` steps later: the `git apply` spawns are exactly the first `k + 1` patches
(the `k` applied ones and the failing attempt), an error is logged, and the
loop ends there. -/
theorem applyPatchesLoop_fail_trace (applyOk : Nat → Bool) :
    ∀ (ps : List String) (k i : Nat), k < ps.length →
      (∀ j, j < k → applyOk (i + j) = true) → applyOk (i + k) = false →
      gitApplyEvents (applyPatchesLoop ps applyOk i) = ps.take (k + 1) ∧
      Event.logError
          "Failed to apply patches. If you\x27ve changed the default linux, you should re-evaluate the patches."
        ∈ applyPatchesLoop ps applyOk i := by
  intro ps
  induction ps with
  | nil =>
    intro k i hk
    exact absurd hk (by simp)
  | cons p ps ih =>
    intro k i hk hbefore hfail
    cases k with
    | zero =>
      have h0 : applyOk i = false := by simpa using hfail
      simp [applyPatchesLoop, h0, gitApplyEvents_cons_logInfo, gitApplyEvents_cons_gitApply,
        gitApplyEvents_cons_logError, gitApplyEvents_nil]
    | succ k =>
      have h0 : applyOk i = true := by simpa using hbefore 0 (Nat.succ_pos k)
      have hrec := ih k (i + 1)
        (by simpa using hk)
        (fun j hj => by
          have := hbefore (j + 1) (Nat.succ_lt_succ hj)
          simpa [Nat.add_assoc, Nat.add_comm 1 j] using this)
        (by simpa [Nat.add_assoc, Nat.add_comm 1 k] using hfail)
      refine ⟨?_, ?_⟩
      · simp [applyPatchesLoop, h0, gitApplyEvents_cons_logInfo,
          gitApplyEvents_cons_gitApply, hrec.1]
      · simp [applyPatchesLoop, h0]
        exact hrec.2

/-- C8: in `oneTimeInit` (here after a successful busybox build, `makeRc = 0`),
a dirty kernel tree skips all patches — no `git apply` is spawned — and logs a
warning; on a clean tree whose first failing patch application is the `k`-th,
exactly the first `k + 1` patches are attempted, an error is logged, and the
initializer still returns normally in both cases: it never aborts on a dirty
tree or a patch failure. -/
theorem oneTimeInit_patch_policy (wlutilDir : String) (cpu : Nat)
    (dirExists : String → Bool) (patches : List String) (applyOk : Nat → Bool) (k : Nat)
    (hk : k < patches.length) (hbefore : ∀ j, j < k → applyOk j = true)
    (hfail : applyOk k = false) :
    ((oneTimeInit wlutilDir cpu dirExists 0 true patches applyOk).2 = Except.ok () ∧
     gitApplyEvents (oneTimeInit wlutilDir cpu dirExists 0 true patches applyOk).1 = [] ∧
     Event.logWarning
         "Linux source dirty, skipping patches. You should manually check that the following patches have been applied (or are not needed):"
       ∈ (oneTimeInit wlutilDir cpu dirExists 0 true patches applyOk).1) ∧
    ((oneTimeInit wlutilDir cpu dirExists 0 false patches applyOk).2 = Except.ok () ∧
     gitApplyEvents (oneTimeInit wlutilDir cpu dirExists 0 false patches applyOk).1
       = patches.take (k + 1) ∧
     Event.logError
         "Failed to apply patches. If you\x27ve changed the default linux, you should re-evaluate the patches."
       ∈ (oneTimeInit wlutilDir cpu dirExists 0 false patches applyOk).1) := by
  have hmk : gitApplyEvents ((initramfs_dirs.filter
      (fun d => ! dirExists (initramfs_root wlutilDir ++ "/" ++ d))).map
      (fun d => Event.mkdirP (initramfs_root wlutilDir ++ "/" ++ d))) = [] := by
    refine List.filterMap_eq_nil_iff.mpr (fun a ha => ?_)
    obtain ⟨d, _, rfl⟩ := List.mem_map.1 ha
    rfl
  have hloop := applyPatchesLoop_fail_trace applyOk patches k 0 hk
    (fun j hj => by simpa using hbefore j hj) (by simpa using hfail)
  constructor
  · refine ⟨by simp [oneTimeInit, run], ?_, by simp [oneTimeInit, run]⟩
    simp [oneTimeInit, run, gitApplyEvents, List.filterMap_append] at hmk ⊢
  · refine ⟨by simp [oneTimeInit, run], ?_, ?_⟩
    · have heq : gitApplyEvents (oneTimeInit wlutilDir cpu dirExists 0 false patches applyOk).1
          = gitApplyEvents (applyPatchesLoop patches applyOk 0) := by
        simp [oneTimeInit, run, gitApplyEvents, List.filterMap_append] at hmk ⊢
      rw [heq, hloop.1]
    · simp [oneTimeInit, run]
      exact hloop.2

/-- Witness for C8: two patches, the second application fails. -/
theorem oneTimeInit_patch_policy_witness :
    gitApplyEvents (oneTimeInit "/wl" 4 (fun _ => true) 0 true ["a.patch", "b.patch", "c.patch"]
        (fun i => i == 0)).1 = [] ∧
    gitApplyEvents (oneTimeInit "/wl" 4 (fun _ => true) 0 false ["a.patch", "b.patch", "c.patch"]
        (fun i => i == 0)).1 = ["a.patch", "b.patch"] ∧
    (oneTimeInit "/wl" 4 (fun _ => true) 0 false ["a.patch", "b.patch", "c.patch"]
        (fun i => i == 0)).2 = Except.ok () := by
  have h := oneTimeInit_patch_policy "/wl" 4 (fun _ => true)
    ["a.patch", "b.patch", "c.patch"] (fun i => i == 0) 1
    (by decide) (by decide) (by decide)
  exact ⟨h.1.2.1, h.2.2.1, h.2.1⟩


/-- C3 counterexample: `toCpio` on a fedora-distro config spawns the
initramfs-append concatenation through a direct `sp.call`, not through `run` —
refuting the claim that every external-process invocation goes through the
command runner. -/
theorem toCpio_direct_spawn_counterexample :
    Event.spCall "cat /wl/fedora-initramfs-append.cpio >> /out/a.cpio"
      ∈ (toCpio "/fm" "/wl" "fedora" "base.img" "/out/a.cpio" 7).1 ∧
    isDirectSpawn (Event.spCall "cat /wl/fedora-initramfs-append.cpio >> /out/a.cpio")
      = true := by
  exact ⟨by decide, rfl⟩

/-- The patch loop spawns only through `run`. -/
theorem applyPatchesLoop_no_direct_spawn (applyOk : Nat → Bool) :
    ∀ (ps : List String) (i : Nat), ∀ e ∈ applyPatchesLoop ps applyOk i,
      isDirectSpawn e = false := by
  intro ps
  induction ps with
  | nil =>
    intro i e he
    simp [applyPatchesLoop] at he
  | cons p ps ih =>
    intro i e he
    by_cases h : applyOk i
    · simp [applyPatchesLoop, h] at he
      rcases he with rfl | rfl | he
      · rfl
      · rfl
      · exact ih (i + 1) e he
    · simp [applyPatchesLoop, h] at he
      rcases he with rfl | rfl | rfl <;> rfl

/-- The poller trace holds only probe and sleep events — it spawns nothing. -/
theorem waitpidLoop_no_direct_spawn (pid : Nat) (probe : Nat → KillRes) :
    ∀ fuel i, ((waitpidLoop pid probe fuel i).getD []).countP
      (fun e => isDirectSpawn e) = 0 := by
  intro fuel
  induction fuel with
  | zero => intro i; rfl
  | succ fuel ih =>
    intro i
    by_cases hg : probe i = KillRes.oserror 3
    · rw [waitpidLoop_step_gone pid probe fuel i hg]
      rfl
    · rw [waitpidLoop_step_not_gone pid probe fuel i hg]
      cases hmap : waitpidLoop pid probe fuel (i + 1) with
      | none => rfl
      | some tr =>
        have htr := ih (i + 1)
        rw [hmap] at htr
        simpa [List.countP_cons, isDirectSpawn] using htr

/-- C3 amended: every external-process invocation of the modeled components —
`copyImgFiles` (and with it `mountImg` and `applyOverlay`), `oneTimeInit`, and
the `waitpid` poller (which spawns nothing) — goes through `run`, with one
exception: `toCpio` performs exactly one direct `subprocess.call` spawn when
the distro is `fedora` or `br`, and none otherwise. -/
theorem run_choke_point_amended (rootDir wlutilDir img distro src dst d : String)
    (me dirty : Bool) (files : List FileSpec) (pid cpu fuel : Nat)
    (probe : Nat → KillRes) (dirExists : String → Bool) (makeRc : Int)
    (patches : List String) (applyOk : Nat → Bool) :
    (copyImgFiles rootDir me img files d pid).1.countP (fun e => isDirectSpawn e) = 0 ∧
    (oneTimeInit wlutilDir cpu dirExists makeRc dirty patches applyOk).1.countP
      (fun e => isDirectSpawn e) = 0 ∧
    ((waitpid pid probe fuel).getD []).countP (fun e => isDirectSpawn e) = 0 ∧
    (toCpio rootDir wlutilDir distro src dst pid).1.countP (fun e => isDirectSpawn e)
      = (if distro = "fedora" ∨ distro = "br" then 1 else 0) := by
  refine ⟨?_, ?_, ?_, ?_⟩
  · cases h : (copyBody (mnt rootDir) d files).2 <;> by_cases hm : me <;>
      simp [copyImgFiles, mountImg, h, hm, List.countP_append, List.countP_cons,
        isDirectSpawn] <;>
      exact fun a ha => (copyBody_no_special_spawns (mnt rootDir) d files a ha).2.2
  · cases h : run (Cmd.argv ["make", jlevel cpu]) true makeRc <;> by_cases hd : dirty <;>
      simp [oneTimeInit, h, hd, List.countP_append, List.countP_cons, List.countP_map,
        Function.comp, isDirectSpawn] <;>
      exact fun a ha => applyPatchesLoop_no_direct_spawn applyOk patches 0 a ha
  · exact waitpidLoop_no_direct_spawn pid probe fuel 0
  · by_cases hf : distro = "fedora"
    · simp [toCpio, mountImg, hf, List.countP_append, List.countP_cons, isDirectSpawn]
    · by_cases hb : distro = "br"
      · simp [toCpio, mountImg, hf, hb, List.countP_append, List.countP_cons, isDirectSpawn]
      · simp [toCpio, mountImg, hf, hb, List.countP_append, List.countP_cons, isDirectSpawn]

end Wlutil
